import Mathlib

/-!
Verification of the Dalvik JIT compiler front end (vm/compiler/Frontend.c)
against its natural-language specification.

The C sources are shallowly embedded: machine integers become Nat/Int with
explicit casts where the C casts (u4 -> s32 reinterpretation, u32 wraparound),
out-parameters become Option-valued record fields (none = the C left the
location untouched), and the external collaborators of the spec (the decode
tables gDvm.instrWidth / gDvm.instrFormat / gDvm.instrFlags, the resolved
method tables, the JIT globals gDvmJit) become explicit environment records.
-/

namespace DalvikFrontend

/-! ## Raw code units and parseInsn (Frontend.c lines 26-58)

parseInsn reads the raw 16-bit code unit at codePtr, extracts the opcode
byte, and computes the instruction length.  The operand decode proper is
delegated to the external dexDecodeInstruction, so the embedding models only
the returned length.  The three reserved inline-data signatures come from
libdex/OpCode.h. -/

def kPackedSwitchSignature : Nat := 0x0100

def kSparseSwitchSignature : Nat := 0x0200

def kArrayDataSignature : Nat := 0x0300

/-- Embedding of parseInsn, Frontend.c lines 26-58.  `instrWidth` models the
external decode table gDvm.instrWidth (signed: negative entries mark
variable-width opcodes, the C negates them back).  `codePtr` gives the raw
16-bit code units at and after the decode position.  Note the source computes
the three inline-data widths into insnWidth and then unconditionally executes
`insnWidth = 0;` (line 45) before returning: the computed value is a dead
store, modelled by the discarded let binding. -/
def parseInsn (instrWidth : Nat → Int) (codePtr : Nat → Nat) : Int :=
  let instr := codePtr 0
  let opcode := instr % 0x100
  -- Need to check if this is a real NOP or a pseudo opcode (OP_NOP = 0x00)
  if opcode = 0 ∧ instr ≠ 0 then
    let insnWidth : Int :=
      if instr = kPackedSwitchSignature then
        4 + (codePtr 1 : Int) * 2
      else if instr = kSparseSwitchSignature then
        2 + (codePtr 1 : Int) * 4
      else if instr = kArrayDataSignature then
        let width : Int := codePtr 1
        let size : Int := (codePtr 2 : Int) + (codePtr 3 : Int) * 0x10000
        -- The plus 1 is to round up for odd size and width
        4 + (size * width + 1) / 2
      else
        0  -- none of the three branches ran: insnWidth stayed uninitialized
    let _ := insnWidth  -- Frontend.c line 45: insnWidth = 0; overwrites it
    0
  else
    let insnWidth := instrWidth opcode
    if insnWidth < 0 then -insnWidth else insnWidth

/-- The inline-data widths the specification assigns in section 4.1 (stated
from the spec's words, to compare with what parseInsn returns): packed-switch
`4 + entries*2`, sparse-switch `2 + entries*4`, array-data
`4 + ceil(size*elemWidth/2)`.  `codePtr` is the same raw-unit window parseInsn
reads. -/
def specInlineDataWidth (codePtr : Nat → Nat) : Nat :=
  let instr := codePtr 0
  if instr = kPackedSwitchSignature then
    4 + codePtr 1 * 2
  else if instr = kSparseSwitchSignature then
    2 + codePtr 1 * 4
  else
    4 + ((codePtr 2 + codePtr 3 * 0x10000) * codePtr 1 + 1) / 2

/-! ## Decoded instructions and opcodes

The opcodes Frontend.c dispatches on, plus a catch-all for every other
opcode byte (the C switch's default arm). -/

inductive OpCode where
  | OP_NOP
  | OP_RETURN_VOID
  | OP_RETURN
  | OP_RETURN_WIDE
  | OP_RETURN_OBJECT
  | OP_THROW
  | OP_INVOKE_VIRTUAL
  | OP_INVOKE_VIRTUAL_RANGE
  | OP_INVOKE_INTERFACE
  | OP_INVOKE_INTERFACE_RANGE
  | OP_INVOKE_VIRTUAL_QUICK
  | OP_INVOKE_VIRTUAL_QUICK_RANGE
  | OP_INVOKE_SUPER
  | OP_INVOKE_SUPER_RANGE
  | OP_INVOKE_STATIC
  | OP_INVOKE_STATIC_RANGE
  | OP_INVOKE_SUPER_QUICK
  | OP_INVOKE_SUPER_QUICK_RANGE
  | OP_INVOKE_DIRECT
  | OP_INVOKE_DIRECT_RANGE
  | OP_GOTO
  | OP_GOTO_16
  | OP_GOTO_32
  | OP_IF_EQ
  | OP_IF_NE
  | OP_IF_LT
  | OP_IF_GE
  | OP_IF_GT
  | OP_IF_LE
  | OP_IF_EQZ
  | OP_IF_NEZ
  | OP_IF_LTZ
  | OP_IF_GEZ
  | OP_IF_GTZ
  | OP_IF_LEZ
  | OP_PACKED_SWITCH
  | OP_SPARSE_SWITCH
  | OP_FILL_ARRAY_DATA
  | OP_OTHER (code : Nat)
deriving DecidableEq, Repr

/-- The vA/vB/vC operand slots of libdex's DecodedInstruction are u4 fields;
they are carried as Nat and reinterpreted as signed where the C casts. -/
structure DecodedInstruction where
  opCode : OpCode
  vA : Nat
  vB : Nat
  vC : Nat
deriving DecidableEq, Repr

/-- Reinterpret a u4 value as a signed 32-bit int, the `(int)` casts of
findBlockBoundary. -/
def s32 (x : Nat) : Int :=
  if x < 0x80000000 then (x : Int) else (x : Int) - 0x100000000

/-- Truncate an Int back to an unsigned 32-bit value, the arithmetic on the
`unsigned int` target offsets. -/
def u32 (i : Int) : Nat :=
  (i % 0x100000000).toNat

/-! ## Methods and the boundary classifier (Frontend.c lines 60-160) -/

/-- The fields of a resolved Method object findBlockBoundary reads:
its vtable index, whether it is a native (non-bytecode) method, and the
address of its bytecode body (`(unsigned int) calleeMethod->insns`). -/
structure MethodInfo where
  methodIndex : Nat
  isNative : Bool
  insnsAddr : Nat
deriving DecidableEq, Repr

/-- The parts of the calling method findBlockBoundary and the trace filter
read: the pre-resolved method reference table
(caller->clazz->pDvmDex->pResMethods), the superclass dispatch table
(caller->clazz->super->vtable), and the name strings. -/
structure CallerMethod where
  pResMethods : Nat → MethodInfo
  superVtable : Nat → MethodInfo
  classDescriptor : String
  methodName : String

/-- The outcome of findBlockBoundary.  The C communicates through the
out-parameters target / isInvoke / callee, initialized by the caller to
curOffset / false / NULL; `target = none` models "the C never wrote
*target", so the caller's initial value survives. -/
structure BoundaryOut where
  isTerminator : Bool
  target : Option Nat
  isInvoke : Bool
  callee : Option MethodInfo
deriving DecidableEq, Repr

/-- Embedding of findBlockBoundary, Frontend.c lines 64-160.  Note the first
case group (returns, throw, virtual/interface dispatch) sets isInvoke = true
for all of its members, returns and throw included, exactly as the source
does. -/
def findBlockBoundary (caller : CallerMethod) (dins : DecodedInstruction)
    (curOffset : Nat) : BoundaryOut :=
  match dins.opCode with
  | .OP_RETURN_VOID | .OP_RETURN | .OP_RETURN_WIDE | .OP_RETURN_OBJECT
  | .OP_THROW
  | .OP_INVOKE_VIRTUAL | .OP_INVOKE_VIRTUAL_RANGE
  | .OP_INVOKE_INTERFACE | .OP_INVOKE_INTERFACE_RANGE
  | .OP_INVOKE_VIRTUAL_QUICK | .OP_INVOKE_VIRTUAL_QUICK_RANGE =>
      { isTerminator := true, target := none, isInvoke := true, callee := none }
  | .OP_INVOKE_SUPER | .OP_INVOKE_SUPER_RANGE =>
      let mIndex := (caller.pResMethods dins.vB).methodIndex
      let calleeMethod := caller.superVtable mIndex
      { isTerminator := true
        target := if calleeMethod.isNative then none else some calleeMethod.insnsAddr
        isInvoke := true
        callee := some calleeMethod }
  | .OP_INVOKE_STATIC | .OP_INVOKE_STATIC_RANGE =>
      let calleeMethod := caller.pResMethods dins.vB
      { isTerminator := true
        target := if calleeMethod.isNative then none else some calleeMethod.insnsAddr
        isInvoke := true
        callee := some calleeMethod }
  | .OP_INVOKE_SUPER_QUICK | .OP_INVOKE_SUPER_QUICK_RANGE =>
      let calleeMethod := caller.superVtable dins.vB
      { isTerminator := true
        target := if calleeMethod.isNative then none else some calleeMethod.insnsAddr
        isInvoke := true
        callee := some calleeMethod }
  | .OP_INVOKE_DIRECT | .OP_INVOKE_DIRECT_RANGE =>
      let calleeMethod := caller.pResMethods dins.vB
      { isTerminator := true
        target := if calleeMethod.isNative then none else some calleeMethod.insnsAddr
        isInvoke := true
        callee := some calleeMethod }
  | .OP_GOTO | .OP_GOTO_16 | .OP_GOTO_32 =>
      { isTerminator := true
        target := some (u32 ((curOffset : Int) + s32 dins.vA))
        isInvoke := false
        callee := none }
  | .OP_IF_EQ | .OP_IF_NE | .OP_IF_LT | .OP_IF_GE | .OP_IF_GT | .OP_IF_LE =>
      { isTerminator := true
        target := some (u32 ((curOffset : Int) + s32 dins.vC))
        isInvoke := false
        callee := none }
  | .OP_IF_EQZ | .OP_IF_NEZ | .OP_IF_LTZ | .OP_IF_GEZ | .OP_IF_GTZ
  | .OP_IF_LEZ =>
      { isTerminator := true
        target := some (u32 ((curOffset : Int) + s32 dins.vB))
        isInvoke := false
        callee := none }
  | _ =>
      { isTerminator := false, target := none, isInvoke := false, callee := none }

/-- Embedding of isUnconditionalBranch, Frontend.c lines 165-179 (the C takes
the MIR node and reads only its opcode). -/
def isUnconditionalBranch (op : OpCode) : Bool :=
  match op with
  | .OP_RETURN_VOID | .OP_RETURN | .OP_RETURN_WIDE | .OP_RETURN_OBJECT
  | .OP_GOTO | .OP_GOTO_16 | .OP_GOTO_32 => true
  | _ => false

/-! ## Basic blocks, MIR nodes and the decode environment -/

/-- The per-opcode control-flow flag bits gDvm.instrFlags holds
(kInstrCanBranch and friends from libdex), as named booleans:
`(flags & (kInstrCanBranch | ...)) == 0` becomes the conjunction of the
negated fields. -/
structure InstrFlags where
  canBranch : Bool := false
  canContinue : Bool := false
  canSwitch : Bool := false
  canThrow : Bool := false
  canReturn : Bool := false
  invoke : Bool := false
  unconditional : Bool := false
deriving DecidableEq, Repr

/-- One MIR node: a decoded instruction, its starting offset in the method's
code and its width (the insn->offset / insn->width / insn->dalvikInsn fields
the graph builders read). -/
structure MIRInsn where
  offset : Nat
  width : Nat
  dins : DecodedInstruction
deriving DecidableEq, Repr

/-- The block kinds Frontend.c creates (enum BBType). -/
inductive BBType where
  | DALVIK_BYTECODE
  | CHAINING_CELL_NORMAL
  | CHAINING_CELL_HOT
  | CHAINING_CELL_INVOKE
  | PC_RECONSTRUCTION
  | EXCEPTION_HANDLING
deriving DecidableEq, Repr

/-- Is the kind one of the three chaining-cell kinds? -/
def isChainingCell (ty : BBType) : Bool :=
  match ty with
  | .CHAINING_CELL_NORMAL | .CHAINING_CELL_HOT | .CHAINING_CELL_INVOKE => true
  | _ => false

/-- A basic block.  The C links blocks by pointers; here the taken and
fallThrough edges carry the id of the block they point to (ids are unique,
see the block-id theorem), and `none` models a NULL edge.  The instruction
chain firstMIRInsn..lastMIRInsn becomes the list `insns`. -/
structure BasicBlock where
  id : Nat
  blockType : BBType
  startOffset : Nat
  insns : List MIRInsn
  taken : Option Nat
  fallThrough : Option Nat
  needFallThroughBranch : Bool
  containingMethod : Option MethodInfo
deriving DecidableEq, Repr

/-- A fresh block as dvmCompilerNewBB returns it (arena memory is
zero-initialized), with the id the creation sites assign right away. -/
def newBB (ty : BBType) (id : Nat) : BasicBlock :=
  { id := id, blockType := ty, startOffset := 0, insns := []
    taken := none, fallThrough := none, needFallThroughBranch := false
    containingMethod := none }

/-- Everything the front end reads from the method being compiled and from
the external decode tables: the decoded instruction and parseInsn width at
each code offset (dexDecodeInstruction + parseInsn), the per-opcode flag
bits, the resolved-method tables of the caller, and the code length in
16-bit units (dexCode->insnsSize). -/
structure DvmEnv where
  insnAt : Nat → DecodedInstruction × Nat
  instrFlags : OpCode → InstrFlags
  caller : CallerMethod
  insnsSize : Nat

/-! ## Trace descriptors and the trace filter (Frontend.c lines 186-265) -/

/-- One run of a JitTraceDescription: frag.startOffset, frag.numInsts,
frag.runEnd. -/
structure JitTraceRun where
  startOffset : Nat
  numInsts : Nat
  runEnd : Bool
deriving DecidableEq, Repr

/-- A trace descriptor: the C reads desc->trace[0] unconditionally, so the
first run is separated from the rest. -/
structure JitTraceDescription where
  first : JitTraceRun
  rest : List JitTraceRun
deriving DecidableEq, Repr

/-- The JIT globals dvmCompileTrace reads: the optional name table
(gDvmJit.methodTable, modelled as the list of strings it stores; the hashed
lookup with strcmp compare is string membership), the include/exclude mode
and the diagnostic flag. -/
structure JitGlobals where
  methodTable : Option (List String)
  includeSelectedMethod : Bool
  printMe : Bool

/-- One dvmHashTableLookup call on the method table: found iff an equal
string is stored. -/
def methodTableLookup (table : List String) (key : String) : Bool :=
  table.contains key

/-- The three-level screening cascade of Frontend.c lines 219-243: full
"class;method" signature first, then the enclosing class descriptor, then
the method name, each tried only when the previous level missed. -/
def traceFilterFound (table : List String) (caller : CallerMethod) : Bool :=
  let fullSignature := caller.classDescriptor ++ caller.methodName
  let methodFound := methodTableLookup table fullSignature
  if methodFound = false then
    let methodFound := methodTableLookup table caller.classDescriptor
    if methodFound = false then
      methodTableLookup table caller.methodName
    else methodFound
  else methodFound

/-- The trace-filter step, Frontend.c lines 204-265: returns the
(allSingleStep, printMe) pair of cUnit flags it leaves behind.  With no
method table both flags keep their initial values (allSingleStep false from
the memset, printMe from gDvmJit.printMe). -/
def traceFilter (jit : JitGlobals) (caller : CallerMethod) : Bool × Bool :=
  match jit.methodTable with
  | none => (false, jit.printMe)
  | some table =>
    let methodFound := traceFilterFound table caller
    if jit.includeSelectedMethod ≠ methodFound then
      (true, jit.printMe)
    else
      (false, if jit.includeSelectedMethod = true then true else jit.printMe)

/-! ## Trace graph builder, pass 1 (Frontend.c lines 267-313)

The while(1) loop appends one MIR per iteration, breaks when
cUnit.numInsts >= numMaxInsts, and otherwise either continues the current
run, stops at the last run's end, or opens a new block at the next run's
start.  Since cUnit.numInsts grows by exactly one per iteration, the budget
check is carried as the structural fuel
`fuel = (numMaxInsts - cUnit.numInsts - 1).toNat`: fuel = 0 right after an
append is exactly `cUnit.numInsts >= numMaxInsts`. -/

/-- What pass 1 leaves behind: the bytecode blocks in chain (= creation)
order, the running block-id counter, cUnit.numInsts and traceSize. -/
structure TraceBuildOut where
  blocks : List BasicBlock
  numBlocks : Nat
  numInsts : Nat
  traceSize : Nat
deriving DecidableEq, Repr

/-- The u32 decrement `--numInsts` (numInsts is an unsigned int; a
descriptor run with numInsts = 0 wraps around instead of hitting zero). -/
def u32pred (n : Nat) : Nat :=
  if n = 0 then 0xFFFFFFFF else n - 1

/-- A completed bytecode block of pass 1. -/
def closeBB (id startOffset : Nat) (insns : List MIRInsn) : BasicBlock :=
  { newBB .DALVIK_BYTECODE id with startOffset := startOffset, insns := insns }

/-- Embedding of the trace-descriptor consumption loop, Frontend.c lines
281-313.  `runs` are the descriptor runs after the current one, `numInsts`
the current run's remaining-instruction counter, `count` is cUnit.numInsts,
and curStart/curId/curInsns the block under construction.  When the
descriptor is malformed (runEnd never set on the last run) the C reads past
the descriptor; the model stops instead. -/
def traceLoop (env : DvmEnv) (runs : List JitTraceRun)
    (curOffset : Nat) (numInsts : Nat) (runEnd : Bool) (fuel : Nat)
    (count traceSize : Nat) (curStart curId : Nat) (curInsns : List MIRInsn)
    (doneBlocks : List BasicBlock) (numBlocks : Nat) : TraceBuildOut :=
  let d := env.insnAt curOffset
  let insn : MIRInsn := { offset := curOffset, width := d.2, dins := d.1 }
  let curInsns := curInsns ++ [insn]
  let traceSize := traceSize + d.2
  let count := count + 1
  match fuel with
  | 0 =>
    -- Instruction limit reached - terminate the trace here
    { blocks := doneBlocks ++ [closeBB curId curStart curInsns]
      numBlocks := numBlocks, numInsts := count, traceSize := traceSize }
  | fuel + 1 =>
    let numInsts := u32pred numInsts
    if numInsts = 0 then
      if runEnd then
        { blocks := doneBlocks ++ [closeBB curId curStart curInsns]
          numBlocks := numBlocks, numInsts := count, traceSize := traceSize }
      else
        match runs with
        | [] =>
          -- malformed descriptor: the C would read past trace[]
          { blocks := doneBlocks ++ [closeBB curId curStart curInsns]
            numBlocks := numBlocks, numInsts := count, traceSize := traceSize }
        | nextRun :: rest =>
          traceLoop env rest nextRun.startOffset nextRun.numInsts
            nextRun.runEnd fuel count traceSize nextRun.startOffset numBlocks
            [] (doneBlocks ++ [closeBB curId curStart curInsns])
            (numBlocks + 1)
    else
      traceLoop env runs (curOffset + d.2) numInsts runEnd fuel count
        traceSize curStart curId curInsns doneBlocks numBlocks

/-- Pass 1 entry: allocate the first bytecode block at the first run's start
offset with id 0 (numBlocks becomes 1) and consume the descriptor,
Frontend.c lines 186-313. -/
def buildTraceBlocks (env : DvmEnv) (desc : JitTraceDescription)
    (numMaxInsts : Int) : TraceBuildOut :=
  traceLoop env desc.rest desc.first.startOffset desc.first.numInsts
    desc.first.runEnd (numMaxInsts - 1).toNat 0 0 desc.first.startOffset 0 []
    [] 1

/-! ## Trace graph builder, pass 2 (Frontend.c lines 315-399)

The edge-resolution loop walks the block chain from startBB and breaks at
the first block with no instructions (the chaining cells appended during the
loop are instruction-free and sit after every bytecode block, so the loop
visits exactly the pass-1 blocks).  The model walks the pass-1 list and
carries the appended cells separately; the chain a block's forward search
scans (curBB->next onwards) is the later bytecode blocks followed by the
cells appended so far. -/

/-- The state pass 2 threads: the blocks already visited (their edges
resolved), the chaining cells appended behind the chain so far, and the
block-id counter. -/
structure ConnectState where
  processed : List BasicBlock
  cells : List BasicBlock
  numBlocks : Nat
deriving DecidableEq, Repr

/-- The forward search of Frontend.c lines 339-346: scan the chain after
curBB and link the last block whose startOffset matches (the C loop keeps
overwriting without breaking).  Returns the id of the matched block. -/
def lastMatchId (offset : Nat) (searchBBs : List BasicBlock) : Option Nat :=
  searchBBs.foldl
    (fun acc searchBB =>
      if offset = searchBB.startOffset then some searchBB.id else acc)
    none

/-- The body of the edge-resolution loop for one visited block, Frontend.c
lines 326-398: classify the last instruction, search forward for the taken
and fallthrough blocks, compute needFallThroughBranch, and synthesize the
missing chaining cells.  Returns the resolved block, the updated cell list
and the updated block-id counter. -/
def connectStep (env : DvmEnv) (curBB : BasicBlock) (lastInsn : MIRInsn)
    (restBBs : List BasicBlock) (st : ConnectState) :
    BasicBlock × List BasicBlock × Nat :=
  let curOffset := lastInsn.offset
  let fallThroughOffset := curOffset + lastInsn.width
  let bd := findBlockBoundary env.caller lastInsn.dins curOffset
  let targetOffset := bd.target.getD curOffset
  let isInvoke := bd.isInvoke
  let callee := bd.callee
  -- No backward branch in the trace - start searching the next BB
  let searchBBs := restBBs ++ st.cells
  let taken := lastMatchId targetOffset searchBBs
  let fallThrough := lastMatchId fallThroughOffset searchBBs
  let flags := env.instrFlags lastInsn.dins.opCode
  let needFallThroughBranch :=
    !(flags.canBranch || flags.canSwitch || flags.canReturn || flags.invoke)
  -- Target block not included in the trace
  let takenStep :
      Option Nat × List BasicBlock × Nat :=
    if targetOffset ≠ curOffset ∧ taken = none then
      let cellType :=
        if isInvoke then BBType.CHAINING_CELL_INVOKE
        -- For unconditional branches, request a hot chaining cell
        else if flags.unconditional then BBType.CHAINING_CELL_HOT
        else BBType.CHAINING_CELL_NORMAL
      let cell :=
        if isInvoke then
          { newBB cellType st.numBlocks with containingMethod := callee }
        else
          { newBB cellType st.numBlocks with startOffset := targetOffset }
      (some st.numBlocks, st.cells ++ [cell], st.numBlocks + 1)
    else (taken, st.cells, st.numBlocks)
  let cells := takenStep.2.1
  let numBlocks := takenStep.2.2
  -- Fallthrough block not included in the trace
  let ftStep :
      Option Nat × List BasicBlock × Nat :=
    if isUnconditionalBranch lastInsn.dins.opCode = false
        ∧ fallThrough = none then
      let cellType :=
        if isInvoke || needFallThroughBranch then BBType.CHAINING_CELL_HOT
        else BBType.CHAINING_CELL_NORMAL
      let cell :=
        { newBB cellType numBlocks with startOffset := fallThroughOffset }
      (some numBlocks, cells ++ [cell], numBlocks + 1)
    else (fallThrough, cells, numBlocks)
  ({ curBB with taken := takenStep.1, fallThrough := ftStep.1
                needFallThroughBranch := needFallThroughBranch }
   , ftStep.2.1, ftStep.2.2)

/-- Embedding of the edge-resolution and chaining-cell synthesis loop,
Frontend.c lines 320-399, over the remaining bytecode blocks. -/
def connectLoop (env : DvmEnv) :
    List BasicBlock → ConnectState → ConnectState
  | [], st => st
  | curBB :: restBBs, st =>
    match curBB.insns.getLast? with
    | none =>
      -- Hit a pseudo block - exit the search now (the unvisited blocks stay
      -- in the chain untouched)
      { st with processed := st.processed ++ curBB :: restBBs }
    | some lastInsn =>
      let step := connectStep env curBB lastInsn restBBs st
      connectLoop env restBBs
        { processed := st.processed ++ [step.1], cells := step.2.1
          numBlocks := step.2.2 }

/-! ## Trace graph builder, trailer and block array (Frontend.c 401-476) -/

/-- The populated Compilation Unit a trace compile hands to lowering: the
block array, block and instruction counts and the filter flags. -/
structure CompilationUnit where
  blockList : List BasicBlock
  numBlocks : Nat
  numInsts : Nat
  traceSize : Nat
  allSingleStep : Bool
  printMe : Bool
deriving DecidableEq, Repr

/-- Embedding of dvmCompileTrace up to the hand-off to lowering, Frontend.c
lines 186-446: trace filter, pass 1, pass 2, then the PC-reconstruction and
exception-handling trailer blocks, then the blockList array populated in
chain order. -/
def dvmCompileTrace (jit : JitGlobals) (env : DvmEnv)
    (desc : JitTraceDescription) (numMaxInsts : Int) : CompilationUnit :=
  let filterOut := traceFilter jit env.caller
  let bo := buildTraceBlocks env desc numMaxInsts
  let rs := connectLoop env bo.blocks
    { processed := [], cells := [], numBlocks := bo.numBlocks }
  -- Now create a special block to host PC reconstruction code
  let pcBB := newBB .PC_RECONSTRUCTION rs.numBlocks
  -- And one final block that publishes the PC and raise the exception
  let excBB := newBB .EXCEPTION_HANDLING (rs.numBlocks + 1)
  { blockList := rs.processed ++ rs.cells ++ [pcBB, excBB]
    numBlocks := rs.numBlocks + 2
    numInsts := bo.numInsts
    traceSize := bo.traceSize
    allSingleStep := filterOut.1
    printMe := filterOut.2 }

/-- The budget the retry at Frontend.c line 474 passes back into
dvmCompileTrace when lowering set cUnit.halveInstCount:
`cUnit.numInsts / 2` (C int division of the non-negative instruction
count). -/
def retryNumMaxInsts (jit : JitGlobals) (env : DvmEnv)
    (desc : JitTraceDescription) (numMaxInsts : Int) : Int :=
  ((dvmCompileTrace jit env desc numMaxInsts).numInsts / 2 : Nat)

/-! ## Method graph builder (Frontend.c lines 485-654)

dvmCompileMethod decodes the whole method into one block while marking
block-start offsets in a bit vector, computes the expected block count from
the set bits, splits blocks iteratively, checks the discovered count against
the expected one (dvmAbort on mismatch), and resolves taken edges (dvmAbort
when a target has no block).  The bit-vector primitives dvmAllocBitVector /
dvmSetBit / dvmIsBitSet / dvmCountSetBits are external collaborators,
modelled as a Bool list of dexCode->insnsSize + 1 bits.  (The C vector is
non-expandable, so dvmSetBit past the allocated size aborts there; the model
ignores such sets - no claim depends on out-of-range targets.) -/

/-- dvmAllocBitVector(n, false): n bits, all clear. -/
def bvAlloc (n : Nat) : List Bool :=
  List.replicate n false

/-- dvmSetBit. -/
def bvSet (bv : List Bool) (i : Nat) : List Bool :=
  bv.set i true

/-- dvmIsBitSet. -/
def bvGet (bv : List Bool) (i : Nat) : Bool :=
  bv.getD i false

/-- dvmCountSetBits. -/
def bvCount (bv : List Bool) : Nat :=
  bv.count true

/-- Embedding of the sequential decode-and-mark pass, Frontend.c lines
504-535: put every instruction into one chain, and for every terminator mark
the following offset, and the target offset when it differs.  The loop
advances by the parsed width; under the zero-width parseInsn defect the C
loop would not advance at all, so the recursion is driven by a fuel of
insnsSize, exact whenever every width is at least one. -/
def methodScan (env : DvmEnv) (fuel : Nat) (curOffset : Nat)
    (insns : List MIRInsn) (bbStartAddr : List Bool) :
    List MIRInsn × List Bool :=
  match fuel with
  | 0 => (insns, bbStartAddr)
  | fuel + 1 =>
    if curOffset < env.insnsSize then
      let d := env.insnAt curOffset
      let insn : MIRInsn := { offset := curOffset, width := d.2, dins := d.1 }
      let insns := insns ++ [insn]
      let bd := findBlockBoundary env.caller d.1 curOffset
      let target := bd.target.getD curOffset
      let bbStartAddr :=
        if bd.isTerminator then
          let bbStartAddr := bvSet bbStartAddr (curOffset + d.2)
          if target ≠ curOffset then bvSet bbStartAddr target else bbStartAddr
        else bbStartAddr
      methodScan env fuel (curOffset + d.2) insns bbStartAddr
    else (insns, bbStartAddr)

/-- The block-start bit vector dvmCompileMethod builds: insnsSize + 1 bits,
bit 0 pre-set, then the scan marks. -/
def methodStartBits (env : DvmEnv) : List Bool :=
  (methodScan env env.insnsSize 0 []
    (bvSet (bvAlloc (env.insnsSize + 1)) 0)).2

/-- The single initial chain holding every decoded instruction. -/
def methodAllInsns (env : DvmEnv) : List MIRInsn :=
  (methodScan env env.insnsSize 0 []
    (bvSet (bvAlloc (env.insnsSize + 1)) 0)).1

/-- The expected block count, Frontend.c lines 542-545: the number of set
bits, minus one when the bit after the last instruction is set (it marks
end-of-code, not a block). -/
def methodExpectedBlockCount (env : DvmEnv) : Nat :=
  let bits := methodStartBits env
  let numBlocks := bvCount bits
  if bvGet bits env.insnsSize then numBlocks - 1 else numBlocks

/-- The state of the splitting loop: the block list (its length equals
cUnit.numBlocks throughout) and the block-id counter. -/
structure SplitState where
  blockList : List BasicBlock
  numBlocks : Nat
  blockID : Nat
deriving DecidableEq, Repr

/-- The inner scan of Frontend.c lines 568-600 over curBB's instruction
chain, from firstMIRInsn->next on: the first instruction whose offset is a
marked block start with no existing block beginning there is the split
point; offsets already owning a block are skipped.  Returns the kept prefix
and the moved suffix. -/
def findSplitPoint (bbStartAddr : List Bool) (blockList : List BasicBlock) :
    List MIRInsn → List MIRInsn → Option (List MIRInsn × List MIRInsn)
  | _, [] => none
  | keptInsns, insn :: restInsns =>
    if bvGet bbStartAddr insn.offset
        ∧ blockList.all
            (fun b =>
              match b.insns.head? with
              | some firstInsn => decide (firstInsn.offset ≠ insn.offset)
              | none => true) then
      some (keptInsns, insn :: restInsns)
    else
      findSplitPoint bbStartAddr blockList (keptInsns ++ [insn]) restInsns

/-- One outer iteration of the splitting loop, Frontend.c lines 563-601,
for index i: none models the C crash of dereferencing a block slot that was
never filled (calloc leaves it NULL) or an empty block's lastMIRInsn. -/
def splitStep (bbStartAddr : List Bool) (st : SplitState) (i : Nat) :
    Option SplitState :=
  match st.blockList.get? i with
  | none => none
  | some curBB =>
    match curBB.insns with
    | [] => none
    | firstInsn :: restInsns =>
      match findSplitPoint bbStartAddr st.blockList [firstInsn] restInsns with
      | none => some st
      | some (keptInsns, movedInsns) =>
        -- Block not split yet - do it now (the C leaves newBB->startOffset
        -- at its zero initialization)
        let bb := { newBB .DALVIK_BYTECODE st.blockID with
                      insns := movedInsns }
        let lastKept := keptInsns.getLast?
        let fallThrough :=
          match lastKept with
          | some lk =>
            -- If the insn is not an unconditional branch, set up the
            -- fallthrough link.
            if isUnconditionalBranch lk.dins.opCode = false then some bb.id
            else curBB.fallThrough
          | none => curBB.fallThrough
        let curBB := { curBB with insns := keptInsns
                                  fallThrough := fallThrough }
        some { blockList := st.blockList.set i curBB ++ [bb]
               numBlocks := st.numBlocks + 1
               blockID := st.blockID + 1 }

/-- The outer splitting loop over the indices 0 .. numBlocks-1. -/
def splitRun (bbStartAddr : List Bool) :
    List Nat → SplitState → Option SplitState
  | [], st => some st
  | i :: rest, st =>
    match splitStep bbStartAddr st i with
    | none => none
    | some st2 => splitRun bbStartAddr rest st2

/-- The splitting pass of dvmCompileMethod as a whole: one initial block with
all instructions, then numBlocks outer iterations. -/
def methodSplitOutcome (env : DvmEnv) : Option SplitState :=
  let firstBlock := { newBB .DALVIK_BYTECODE 0 with insns := methodAllInsns env }
  splitRun (methodStartBits env) (List.range (methodExpectedBlockCount env))
    { blockList := [firstBlock], numBlocks := 1, blockID := 1 }

/-- The search of Frontend.c lines 622-635 for the block starting at
`target`: forward from i+1 when the branch goes forward, from the list head
when it goes backward; the first match wins. -/
def methodFindTargetIdx (blockList : List BasicBlock) (numBlocks : Nat)
    (i : Nat) (insnOffset target : Nat) : Option Nat :=
  let j0 := if target > insnOffset then i + 1 else 0
  (List.range' j0 (numBlocks - j0)).findSome?
    (fun j =>
      match blockList.get? j with
      | some b =>
        match b.insns.head? with
        | some firstInsn =>
          if firstInsn.offset = target then some j else none
        | none => none
      | none => none)

/-- How a method compile ends in the model: a populated unit, one of the two
logged dvmAbort exits, or the crash of dereferencing an unfilled block
slot. -/
inductive MethodResult where
  | ok (blockList : List BasicBlock) (numBlocks : Nat)
  | abortBlockMismatch (expected found : Nat)
  | abortTargetMissing (insnOffset target : Nat)
  | crash
deriving DecidableEq, Repr

/-- The taken-edge resolution loop, Frontend.c lines 611-643. -/
def methodConnectTaken (env : DvmEnv) (numBlocks : Nat) :
    List Nat → List BasicBlock → MethodResult
  | [], blockList => .ok blockList numBlocks
  | i :: rest, blockList =>
    match blockList.get? i with
    | none => .crash
    | some curBB =>
      match curBB.insns.getLast? with
      | none => .crash
      | some insn =>
        let bd := findBlockBoundary env.caller insn.dins insn.offset
        let target := bd.target.getD insn.offset
        -- Found a block ended on a branch
        if target ≠ insn.offset then
          match methodFindTargetIdx blockList numBlocks i insn.offset target with
          | none => .abortTargetMissing insn.offset target
          | some j =>
            match blockList.get? j with
            | none => .crash
            | some tb =>
              let curBB := { curBB with taken := some tb.id }
              methodConnectTaken env numBlocks rest (blockList.set i curBB)
        else
          methodConnectTaken env numBlocks rest blockList

/-- Embedding of dvmCompileMethod up to the hand-off to lowering, Frontend.c
lines 485-654: scan and mark, expected count, iterative splitting, the
count consistency check (LOGE + dvmAbort on mismatch), then taken-edge
resolution (LOGE + dvmAbort on a missing target block). -/
def dvmCompileMethod (env : DvmEnv) : MethodResult :=
  let numBlocks := methodExpectedBlockCount env
  match methodSplitOutcome env with
  | none => .crash
  | some st =>
    if numBlocks ≠ st.numBlocks then
      .abortBlockMismatch numBlocks st.numBlocks
    else
      methodConnectTaken env numBlocks (List.range numBlocks) st.blockList

/-! ## Statement helpers -/

/-- The statically-bindable call kinds of Frontend.c lines 84-132: static,
direct, super and super-quick dispatch (plus their range forms). -/
def isStaticallyResolvedInvoke (op : OpCode) : Bool :=
  match op with
  | .OP_INVOKE_SUPER | .OP_INVOKE_SUPER_RANGE
  | .OP_INVOKE_STATIC | .OP_INVOKE_STATIC_RANGE
  | .OP_INVOKE_SUPER_QUICK | .OP_INVOKE_SUPER_QUICK_RANGE
  | .OP_INVOKE_DIRECT | .OP_INVOKE_DIRECT_RANGE => true
  | _ => false

/-- The callee each statically-bindable call kind resolves to: the
pre-resolved reference table for static/direct, the superclass dispatch
table at the pre-resolved method's index for super, and the superclass
dispatch table at the instruction's own index for super-quick. -/
def resolvedCallee (caller : CallerMethod) (dins : DecodedInstruction) :
    MethodInfo :=
  match dins.opCode with
  | .OP_INVOKE_SUPER | .OP_INVOKE_SUPER_RANGE =>
      caller.superVtable (caller.pResMethods dins.vB).methodIndex
  | .OP_INVOKE_SUPER_QUICK | .OP_INVOKE_SUPER_QUICK_RANGE =>
      caller.superVtable dins.vB
  | _ => caller.pResMethods dins.vB

/-- The edge obligations of a resolved bytecode block: the boundary
classifier's target offset (curOffset when it wrote none) differing from the
last instruction's own offset forces a taken edge, and a terminator that is
not an unconditional-branch form forces a fallThrough edge. -/
def goodEdges (env : DvmEnv) (b : BasicBlock) : Prop :=
  ∀ li, b.insns.getLast? = some li →
    (((findBlockBoundary env.caller li.dins li.offset).target.getD li.offset
        ≠ li.offset) → b.taken ≠ none)
    ∧ (isUnconditionalBranch li.dins.opCode = false → b.fallThrough ≠ none)

/-! ## Concrete inputs used by the witnesses and counterexamples -/

/-- A resolved bytecode-bodied callee. -/
def infoA : MethodInfo := { methodIndex := 0, isNative := false, insnsAddr := 0x1000 }

/-- A caller whose resolution tables always yield `infoA`. -/
def exCaller : CallerMethod :=
  { pResMethods := fun _ => infoA, superVtable := fun _ => infoA
    classDescriptor := "LExample;", methodName := "run" }

/-- Realistic flag-table entries for the opcodes the examples use (the flag
values libdex assigns to these opcodes). -/
def exFlags : OpCode → InstrFlags
  | .OP_INVOKE_VIRTUAL => { canContinue := true, canThrow := true, invoke := true }
  | .OP_IF_EQZ => { canBranch := true, canContinue := true }
  | .OP_GOTO => { canBranch := true, unconditional := true }
  | .OP_RETURN_VOID => { canReturn := true }
  | _ => { canContinue := true }

/-- A method whose code holds the same instruction at every offset. -/
def envOf (op : OpCode) (vA vB vC w : Nat) : DvmEnv :=
  { insnAt := fun _ => ({ opCode := op, vA := vA, vB := vB, vC := vC }, w)
    instrFlags := exFlags, caller := exCaller, insnsSize := 16 }

/-- JIT globals with no method table. -/
def jitNone : JitGlobals :=
  { methodTable := none, includeSelectedMethod := false, printMe := false }

/-- JIT globals whose method table stores the example class descriptor, in
exclude mode. -/
def jitTable : JitGlobals :=
  { methodTable := some ["LExample;"], includeSelectedMethod := false
    printMe := false }

/-- A single-run descriptor of one instruction at offset 0. -/
def desc1 : JitTraceDescription :=
  { first := { startOffset := 0, numInsts := 1, runEnd := true }, rest := [] }

/-- A trace of one virtual invoke. -/
def envInvVirt : DvmEnv := envOf .OP_INVOKE_VIRTUAL 0 0 0 3

/-- A trace of one compare-to-zero conditional branch with displacement 4. -/
def envIfEqz : DvmEnv := envOf .OP_IF_EQZ 0 4 0 2

/-- The bytecode block the invoke-virtual trace produces. -/
def invVirtBlock : BasicBlock :=
  (dvmCompileTrace jitNone envInvVirt desc1 10).blockList.getD 0
    (newBB .DALVIK_BYTECODE 0)

/-- The bytecode block the if-eqz trace produces. -/
def ifeqzBlock : BasicBlock :=
  (dvmCompileTrace jitNone envIfEqz desc1 10).blockList.getD 0
    (newBB .DALVIK_BYTECODE 0)

/-- The last (only) instruction of the if-eqz trace's bytecode block. -/
def ifeqzLast : MIRInsn :=
  { offset := 0, width := 2
    dins := { opCode := .OP_IF_EQZ, vA := 0, vB := 4, vC := 0 } }

/-- An invoke-static instruction with method-reference index 3. -/
def invStaticDins : DecodedInstruction :=
  { opCode := .OP_INVOKE_STATIC, vA := 0, vB := 3, vC := 0 }

/-- An empty method body (insnsSize 0). -/
def envEmptyMethod : DvmEnv :=
  { insnAt := fun _ => ({ opCode := .OP_NOP, vA := 0, vB := 0, vC := 0 }, 1)
    instrFlags := exFlags, caller := exCaller, insnsSize := 0 }

/-- The table gDvm.instrWidth could hold around the inline-data positions
(only entry 0, the no-op, is read on the claim's paths). -/
def exInstrWidth : Nat → Int := fun op => if op = 0 then 1 else 2

/-- Raw code units of a packed-switch payload with 5 entries. -/
def packedSwitchUnits : Nat → Nat := fun i =>
  if i = 0 then kPackedSwitchSignature else if i = 1 then 5 else 0

/-- Raw code units of a sparse-switch payload with 5 entries. -/
def sparseSwitchUnits : Nat → Nat := fun i =>
  if i = 0 then kSparseSwitchSignature else if i = 1 then 5 else 0

/-- Raw code units of an array-data payload with element width 2 and
3 elements. -/
def arrayDataUnits : Nat → Nat := fun i =>
  if i = 0 then kArrayDataSignature
  else if i = 1 then 2
  else if i = 2 then 3
  else 0

/-! ## Theorems -/

/-- C8: the unconditional-branch predicate returns true exactly for the four
return-family opcodes and the three unconditional-jump encodings (goto,
goto/16, goto/32), and false for every other opcode, throw, conditional
branches and invokes included. -/
theorem isUnconditionalBranch_iff_return_or_goto (op : OpCode) :
    isUnconditionalBranch op = true ↔
      (op = .OP_RETURN_VOID ∨ op = .OP_RETURN ∨ op = .OP_RETURN_WIDE
        ∨ op = .OP_RETURN_OBJECT ∨ op = .OP_GOTO ∨ op = .OP_GOTO_16
        ∨ op = .OP_GOTO_32) := by
  cases op <;> simp [isUnconditionalBranch]

/-- C7: for every static, direct, super or super-quick invoke, the boundary
classifier reports a terminator with invocation true, records the callee
resolved through the pre-resolved reference table or the superclass dispatch
table, and writes a concrete target address exactly when the resolved callee
is not native. -/
theorem findBlockBoundary_static_invoke (caller : CallerMethod)
    (dins : DecodedInstruction) (curOffset : Nat)
    (h : isStaticallyResolvedInvoke dins.opCode = true) :
    (findBlockBoundary caller dins curOffset).isTerminator = true
    ∧ (findBlockBoundary caller dins curOffset).isInvoke = true
    ∧ (findBlockBoundary caller dins curOffset).callee
        = some (resolvedCallee caller dins)
    ∧ (findBlockBoundary caller dins curOffset).target
        = (if (resolvedCallee caller dins).isNative then none
           else some (resolvedCallee caller dins).insnsAddr) := by
  rcases dins with ⟨op, vA, vB, vC⟩
  cases op <;>
    simp_all [findBlockBoundary, resolvedCallee, isStaticallyResolvedInvoke]

/-- Witness for C7: an invoke-static at reference index 3 against the
example caller. -/
theorem findBlockBoundary_static_invoke_witness :
    (findBlockBoundary exCaller invStaticDins 0).isTerminator = true
    ∧ (findBlockBoundary exCaller invStaticDins 0).isInvoke = true
    ∧ (findBlockBoundary exCaller invStaticDins 0).callee
        = some (resolvedCallee exCaller invStaticDins)
    ∧ (findBlockBoundary exCaller invStaticDins 0).target
        = (if (resolvedCallee exCaller invStaticDins).isNative then none
           else some (resolvedCallee exCaller invStaticDins).insnsAddr) :=
  findBlockBoundary_static_invoke exCaller invStaticDins 0 (by decide)

/-- C1 (the code, not the claim): at each of the three reserved inline-data
signatures parseInsn computes the spec's width into insnWidth and then
returns 0, because line 45 of Frontend.c overwrites insnWidth
unconditionally; the spec widths at the same raw units are 14, 22 and 7. -/
theorem parseInsn_inline_data_width_zero :
    parseInsn exInstrWidth packedSwitchUnits = 0
    ∧ parseInsn exInstrWidth sparseSwitchUnits = 0
    ∧ parseInsn exInstrWidth arrayDataUnits = 0
    ∧ specInlineDataWidth packedSwitchUnits = 14
    ∧ specInlineDataWidth sparseSwitchUnits = 22
    ∧ specInlineDataWidth arrayDataUnits = 7 := by
  decide

/-- C9: with a method table present, the three-level cascade (full
"class;method" signature, then class descriptor, then method name, first hit
short-circuiting) yields the found result; the Compilation Unit's
conservative-compile flag is set exactly when the configured include mode
differs from that result; and the graph the attempt builds is the same
either way. -/
theorem trace_filter_cascade_flag (jit : JitGlobals) (env : DvmEnv)
    (desc : JitTraceDescription) (numMaxInsts : Int) (table : List String)
    (ht : jit.methodTable = some table) :
    ((dvmCompileTrace jit env desc numMaxInsts).allSingleStep = true
        ↔ jit.includeSelectedMethod ≠ traceFilterFound table env.caller)
    ∧ traceFilterFound table env.caller
        = (methodTableLookup table
              (env.caller.classDescriptor ++ env.caller.methodName)
            || methodTableLookup table env.caller.classDescriptor
            || methodTableLookup table env.caller.methodName)
    ∧ (dvmCompileTrace jit env desc numMaxInsts).blockList
        = (dvmCompileTrace { jit with methodTable := none } env desc
            numMaxInsts).blockList := by
  refine ⟨?_, ?_, ?_⟩
  · simp only [dvmCompileTrace, traceFilter, ht]
    by_cases hmode : jit.includeSelectedMethod = traceFilterFound table env.caller
    · simp [hmode]
    · simp [hmode]
  · simp only [traceFilterFound]
    cases h1 : methodTableLookup table
        (env.caller.classDescriptor ++ env.caller.methodName) <;>
      cases h2 : methodTableLookup table env.caller.classDescriptor <;>
        cases h3 : methodTableLookup table env.caller.methodName <;> simp_all
  · rfl

/-- Witness for C9: the example class descriptor is stored in the table, the
full signature is not, so the cascade's second level hits; exclude mode
turns the flag on. -/
theorem trace_filter_cascade_flag_witness :
    ((dvmCompileTrace jitTable envIfEqz desc1 10).allSingleStep = true
        ↔ jitTable.includeSelectedMethod
            ≠ traceFilterFound ["LExample;"] envIfEqz.caller)
    ∧ traceFilterFound ["LExample;"] envIfEqz.caller
        = (methodTableLookup ["LExample;"]
              (envIfEqz.caller.classDescriptor ++ envIfEqz.caller.methodName)
            || methodTableLookup ["LExample;"] envIfEqz.caller.classDescriptor
            || methodTableLookup ["LExample;"] envIfEqz.caller.methodName)
    ∧ (dvmCompileTrace jitTable envIfEqz desc1 10).blockList
        = (dvmCompileTrace { jitTable with methodTable := none } envIfEqz
            desc1 10).blockList :=
  trace_filter_cascade_flag jitTable envIfEqz desc1 10 ["LExample;"] rfl

/-- C5: the method builder's expected block count is the set-bit count of
the block-start bit vector, less one when the end-of-code sentinel bit is
set; and an iterative-splitting outcome whose block count differs from the
expected count makes the compile end in the logged abort, never in a
populated unit. -/
theorem method_block_count_check (env : DvmEnv) :
    methodExpectedBlockCount env
      = (bvCount (methodStartBits env)
          - (if bvGet (methodStartBits env) env.insnsSize = true then 1 else 0))
    ∧ (∀ st, methodSplitOutcome env = some st →
        st.numBlocks ≠ methodExpectedBlockCount env →
        dvmCompileMethod env
          = MethodResult.abortBlockMismatch (methodExpectedBlockCount env)
              st.numBlocks) := by
  constructor
  · simp only [methodExpectedBlockCount]
    by_cases h : bvGet (methodStartBits env) env.insnsSize = true
    · simp [h]
    · simp [h]
  · intro st hst hne
    simp only [dvmCompileMethod, hst]
    have : methodExpectedBlockCount env ≠ st.numBlocks := fun h => hne h.symm
    simp [this]

/-- A mismatched split outcome is reachable: an empty method body expects 0
blocks yet discovers 1, and the compile indeed aborts. -/
theorem method_block_count_abort_reachable :
    methodSplitOutcome envEmptyMethod
        = some { blockList := [{ newBB .DALVIK_BYTECODE 0 with insns := [] }]
                 numBlocks := 1, blockID := 1 }
    ∧ methodExpectedBlockCount envEmptyMethod = 0
    ∧ dvmCompileMethod envEmptyMethod = MethodResult.abortBlockMismatch 0 1 := by
  decide

/-- The consumption loop appends one instruction per iteration and stops no
later than its fuel allows: cUnit.numInsts grows from count by at most
fuel + 1. -/
theorem traceLoop_numInsts_le (env : DvmEnv) :
    ∀ (fuel : Nat) (runs : List JitTraceRun) (curOffset numInsts : Nat)
      (runEnd : Bool) (count traceSize curStart curId : Nat)
      (curInsns : List MIRInsn) (doneBlocks : List BasicBlock)
      (numBlocks : Nat),
      (traceLoop env runs curOffset numInsts runEnd fuel count traceSize
          curStart curId curInsns doneBlocks numBlocks).numInsts
        ≤ count + fuel + 1 := by
  intro fuel
  induction fuel with
  | zero =>
    intro runs curOffset numInsts runEnd count traceSize curStart curId
      curInsns doneBlocks numBlocks
    simp [traceLoop]
  | succ f ih =>
    intro runs curOffset numInsts runEnd count traceSize curStart curId
      curInsns doneBlocks numBlocks
    simp only [traceLoop]
    split
    · split
      · simp
      · split
        · simp
        · exact le_trans (ih _ _ _ _ _ _ _ _ _ _ _) (by omega)
    · exact le_trans (ih _ _ _ _ _ _ _ _ _ _ _) (by omega)

/-- With a positive budget, pass 1 consumes at most numMaxInsts
instructions. -/
theorem buildTraceBlocks_numInsts_le (env : DvmEnv)
    (desc : JitTraceDescription) (numMaxInsts : Int)
    (h : 1 ≤ numMaxInsts) :
    ((buildTraceBlocks env desc numMaxInsts).numInsts : Int) ≤ numMaxInsts := by
  have hb := traceLoop_numInsts_le env (numMaxInsts - 1).toNat desc.rest
    desc.first.startOffset desc.first.numInsts desc.first.runEnd 0 0
    desc.first.startOffset 0 [] [] 1
  simp only [buildTraceBlocks]
  omega

/-- C3 (amended): whenever the previous attempt's budget is at least 1, the
budget the too-large retry passes back (half the consumed instruction
count) is strictly smaller than the previous budget. -/
theorem retry_budget_strictly_smaller_of_pos (jit : JitGlobals)
    (env : DvmEnv) (desc : JitTraceDescription) (numMaxInsts : Int)
    (h : 1 ≤ numMaxInsts) :
    retryNumMaxInsts jit env desc numMaxInsts < numMaxInsts := by
  have hle := buildTraceBlocks_numInsts_le env desc numMaxInsts h
  have hnum : (dvmCompileTrace jit env desc numMaxInsts).numInsts
      = (buildTraceBlocks env desc numMaxInsts).numInsts := rfl
  simp only [retryNumMaxInsts, hnum]
  omega

/-- Witness for C3's amended theorem: a one-instruction trace under budget
10 retries with budget 0 < 10. -/
theorem retry_budget_strictly_smaller_witness :
    retryNumMaxInsts jitNone envIfEqz desc1 10 < 10 :=
  retry_budget_strictly_smaller_of_pos jitNone envIfEqz desc1 10 (by decide)

/-- Counterexample for C3 as stated: the retry chain reaches budget 0 from
budget 1 (every attempt decodes at least one instruction, so a budget-0
attempt still consumes one and retries with 1/2 = 0), and at budget 0 the
next budget is 0 again - not strictly smaller, so the halving alone does
not terminate the chain. -/
theorem retry_budget_not_smaller_at_zero :
    retryNumMaxInsts jitNone envIfEqz desc1 1 = 0
    ∧ retryNumMaxInsts jitNone envIfEqz desc1 0 = 0
    ∧ ¬ retryNumMaxInsts jitNone envIfEqz desc1 0 < 0 := by
  decide

/-- Projection helpers for freshly created blocks. -/
theorem newBB_blockType (ty : BBType) (id : Nat) :
    (newBB ty id).blockType = ty := rfl

/-- A fresh block has no instructions. -/
theorem newBB_insns (ty : BBType) (id : Nat) : (newBB ty id).insns = [] := rfl

/-- A fresh block carries the id it was created with. -/
theorem newBB_id (ty : BBType) (id : Nat) : (newBB ty id).id = id := rfl

/-- The resolved block connectStep returns keeps its kind, instruction
chain, id and start offset: only the edges and needFallThroughBranch
change. -/
theorem connectStep_fst_fields (env : DvmEnv) (curBB : BasicBlock)
    (lastInsn : MIRInsn) (restBBs : List BasicBlock) (st : ConnectState) :
    (connectStep env curBB lastInsn restBBs st).1.blockType = curBB.blockType
    ∧ (connectStep env curBB lastInsn restBBs st).1.insns = curBB.insns
    ∧ (connectStep env curBB lastInsn restBBs st).1.id = curBB.id :=
  ⟨rfl, rfl, rfl⟩

/-- When the classifier's target offset differs from the instruction's own
offset, the visited block leaves connectStep with a taken edge: either the
forward search found one, or a chaining cell was appended. -/
theorem connectStep_taken_ne (env : DvmEnv) (curBB : BasicBlock)
    (lastInsn : MIRInsn) (restBBs : List BasicBlock) (st : ConnectState)
    (h : (findBlockBoundary env.caller lastInsn.dins
            lastInsn.offset).target.getD lastInsn.offset ≠ lastInsn.offset) :
    (connectStep env curBB lastInsn restBBs st).1.taken ≠ none := by
  simp only [connectStep]
  split
  · simp
  · rename_i hcond
    rw [not_and] at hcond
    simp [hcond h]

/-- When the last instruction is not an unconditional-branch form, the
visited block leaves connectStep with a fallThrough edge: either the forward
search found one, or a chaining cell was appended at the fallthrough
offset. -/
theorem connectStep_fallThrough_ne (env : DvmEnv) (curBB : BasicBlock)
    (lastInsn : MIRInsn) (restBBs : List BasicBlock) (st : ConnectState)
    (h : isUnconditionalBranch lastInsn.dins.opCode = false) :
    (connectStep env curBB lastInsn restBBs st).1.fallThrough ≠ none := by
  simp only [connectStep]
  by_cases hft : lastMatchId (lastInsn.offset + lastInsn.width)
      (restBBs ++ st.cells) = none
  · simp [h, hft]
  · simp [h, hft]

/-- Extending an initial id segment by the next consecutive ids. -/
theorem range_append_range' (n k : Nat) :
    List.range n ++ List.range' n k = List.range (n + k) := by
  rw [List.range_eq_range', List.range_eq_range']
  have h := List.range'_append 0 n k 1
  simp only [Nat.mul_one, Nat.zero_add, Nat.one_mul] at h
  rw [h, Nat.add_comm]

/-- connectStep only appends to the cell list: every cell it leaves behind
was already there or is a fresh instruction-free chaining cell, the cell
ids continue consecutively from the entry counter, and the counter advances
by the number of appended cells. -/
theorem connectStep_cells_spec (env : DvmEnv) (curBB : BasicBlock)
    (lastInsn : MIRInsn) (restBBs : List BasicBlock) (st : ConnectState) :
    ∃ k,
      (connectStep env curBB lastInsn restBBs st).2.2 = st.numBlocks + k
      ∧ ((connectStep env curBB lastInsn restBBs st).2.1).map BasicBlock.id
          = st.cells.map BasicBlock.id ++ List.range' st.numBlocks k
      ∧ ∀ c ∈ (connectStep env curBB lastInsn restBBs st).2.1,
          c ∈ st.cells ∨ (isChainingCell c.blockType = true ∧ c.insns = []) := by
  simp only [connectStep]
  split
  · split
    · -- both a taken and a fallthrough chaining cell were appended
      refine ⟨2, by simp, ?_, ?_⟩
      · simp [List.map_append, List.append_assoc, apply_ite BasicBlock.id,
          newBB, List.range'_succ]
      · intro c hc
        simp only [List.append_assoc, List.mem_append, List.mem_singleton] at hc
        rcases hc with hc | hc | hc
        · exact Or.inl hc
        · right
          subst hc
          constructor
          · simp only [apply_ite BasicBlock.blockType, newBB_blockType,
              ite_self]
            split_ifs <;> rfl
          · simp [apply_ite BasicBlock.insns, newBB_insns]
        · right
          subst hc
          constructor
          · simp only [apply_ite BasicBlock.blockType, newBB_blockType,
              ite_self]
            split_ifs <;> rfl
          · simp [apply_ite BasicBlock.insns, newBB_insns]
    · -- only the fallthrough chaining cell was appended
      refine ⟨1, by simp, ?_, ?_⟩
      · simp [List.map_append, apply_ite BasicBlock.id, newBB,
          List.range'_succ]
      · intro c hc
        simp only [List.mem_append, List.mem_singleton] at hc
        rcases hc with hc | hc
        · exact Or.inl hc
        · right
          subst hc
          constructor
          · simp only [apply_ite BasicBlock.blockType, newBB_blockType,
              ite_self]
            split_ifs <;> rfl
          · simp [apply_ite BasicBlock.insns, newBB_insns]
  · split
    · -- only the taken chaining cell was appended
      refine ⟨1, by simp, ?_, ?_⟩
      · simp [List.map_append, apply_ite BasicBlock.id, newBB,
          List.range'_succ]
      · intro c hc
        simp only [List.mem_append, List.mem_singleton] at hc
        rcases hc with hc | hc
        · exact Or.inl hc
        · right
          subst hc
          constructor
          · simp only [apply_ite BasicBlock.blockType, newBB_blockType,
              ite_self]
            split_ifs <;> rfl
          · simp [apply_ite BasicBlock.insns, newBB_insns]
    · exact ⟨0, by simp, by simp, fun c hc => Or.inl hc⟩

/-- A nonempty list has a last element. -/
theorem getLast?_some_of_ne_nil {l : List MIRInsn} (h : l ≠ []) :
    ∃ a, l.getLast? = some a := by
  rcases l with _ | ⟨x, xs⟩
  · exact absurd rfl h
  · exact ⟨(x :: xs).getLast (by simp), List.getLast?_eq_getLast _ _⟩

/-- Every block the edge-resolution loop has visited is an ordinary
bytecode block satisfying its edge obligations, provided the blocks fed to
the loop are nonempty bytecode blocks. -/
theorem connectLoop_processed_good (env : DvmEnv) :
    ∀ (bbs : List BasicBlock) (st : ConnectState),
      (∀ b ∈ bbs, b.blockType = .DALVIK_BYTECODE ∧ b.insns ≠ []) →
      (∀ b ∈ st.processed, b.blockType = .DALVIK_BYTECODE ∧ goodEdges env b) →
      ∀ b ∈ (connectLoop env bbs st).processed,
        b.blockType = .DALVIK_BYTECODE ∧ goodEdges env b := by
  intro bbs
  induction bbs with
  | nil =>
    intro st _ hst b hb
    exact hst b hb
  | cons curBB rest ih =>
    intro st hbs hst b hb
    have hcur : curBB.insns ≠ [] := (hbs curBB (List.mem_cons_self _ _)).2
    obtain ⟨li, hli⟩ := getLast?_some_of_ne_nil hcur
    simp only [connectLoop, hli] at hb
    refine ih _ (fun b2 h2 => hbs b2 (List.mem_cons_of_mem _ h2)) ?_ b hb
    intro b2 hb2
    rcases List.mem_append.mp hb2 with h2 | h2
    · exact hst b2 h2
    · have hb3 : b2 = (connectStep env curBB li rest st).1 :=
        List.mem_singleton.mp h2

      subst hb3
      constructor
      · rw [(connectStep_fst_fields env curBB li rest st).1]
        exact (hbs curBB (List.mem_cons_self _ _)).1
      · intro li2 hli2
        rw [(connectStep_fst_fields env curBB li rest st).2.1, hli] at hli2
        injection hli2 with hli3
        subst hli3
        exact ⟨fun hcond => connectStep_taken_ne env curBB li rest st hcond,
          fun hcond => connectStep_fallThrough_ne env curBB li rest st hcond⟩

/-- Every cell the edge-resolution loop leaves behind is an
instruction-free chaining cell. -/
theorem connectLoop_cells_chaining (env : DvmEnv) :
    ∀ (bbs : List BasicBlock) (st : ConnectState),
      (∀ c ∈ st.cells, isChainingCell c.blockType = true ∧ c.insns = []) →
      ∀ c ∈ (connectLoop env bbs st).cells,
        isChainingCell c.blockType = true ∧ c.insns = [] := by
  intro bbs
  induction bbs with
  | nil =>
    intro st hc c hcm
    exact hc c hcm
  | cons curBB rest ih =>
    intro st hc c hcm
    rcases hli : curBB.insns.getLast? with _ | li
    · simp only [connectLoop, hli] at hcm
      exact hc c hcm
    · simp only [connectLoop, hli] at hcm
      refine ih _ ?_ c hcm
      intro c2 hc2
      obtain ⟨_, _, _, hmem⟩ := connectStep_cells_spec env curBB li rest st
      rcases hmem c2 hc2 with h2 | h2
      · exact hc c2 h2
      · exact h2

/-- The ids along the whole chain (visited blocks, then remaining blocks,
then cells) stay 0,1,2,... and the counter stays the chain length, as the
edge-resolution loop runs. -/
theorem connectLoop_ids (env : DvmEnv) :
    ∀ (bbs : List BasicBlock) (st : ConnectState),
      (st.processed ++ bbs ++ st.cells).map BasicBlock.id
        = List.range st.numBlocks →
      ((connectLoop env bbs st).processed
          ++ (connectLoop env bbs st).cells).map BasicBlock.id
        = List.range (connectLoop env bbs st).numBlocks := by
  intro bbs
  induction bbs with
  | nil =>
    intro st h
    simpa using h
  | cons curBB rest ih =>
    intro st h
    rcases hli : curBB.insns.getLast? with _ | li
    · simp only [connectLoop, hli]
      simpa [List.append_assoc] using h
    · simp only [connectLoop, hli]
      apply ih
      obtain ⟨k, hk, hmap, _⟩ := connectStep_cells_spec env curBB li rest st
      rw [hk, ← range_append_range' st.numBlocks k, ← h]
      simp [List.map_append, hmap,
        (connectStep_fst_fields env curBB li rest st).2.2]

/-- Pass 1 appends to the finished-blocks list only: starting from a
current block with id curId and counter curId + 1, it produces some tail of
nonempty bytecode blocks whose ids continue consecutively from curId, and
leaves the counter equal to the id after the last one. -/
theorem traceLoop_tail_spec (env : DvmEnv) :
    ∀ (fuel : Nat) (runs : List JitTraceRun) (curOffset numInsts : Nat)
      (runEnd : Bool) (count traceSize curStart curId : Nat)
      (curInsns : List MIRInsn) (doneBlocks : List BasicBlock),
      ∃ tail,
        (traceLoop env runs curOffset numInsts runEnd fuel count traceSize
            curStart curId curInsns doneBlocks (curId + 1)).blocks
          = doneBlocks ++ tail
        ∧ (∀ b ∈ tail, b.blockType = .DALVIK_BYTECODE ∧ b.insns ≠ [])
        ∧ tail.map BasicBlock.id = List.range' curId tail.length
        ∧ (traceLoop env runs curOffset numInsts runEnd fuel count traceSize
            curStart curId curInsns doneBlocks (curId + 1)).numBlocks
          = curId + tail.length := by
  intro fuel
  induction fuel with
  | zero =>
    intro runs curOffset numInsts runEnd count traceSize curStart curId
      curInsns doneBlocks
    simp only [traceLoop]
    refine ⟨_, rfl, ?_, ?_, rfl⟩
    · intro b hb
      rw [List.mem_singleton] at hb
      subst hb
      exact ⟨rfl, by simp [closeBB, newBB]⟩
    · simp [closeBB, newBB, List.range'_succ]
  | succ f ihf =>
    intro runs curOffset numInsts runEnd count traceSize curStart curId
      curInsns doneBlocks
    simp only [traceLoop]
    split
    · split
      · -- the last run ended: close the current block
        refine ⟨_, rfl, ?_, ?_, rfl⟩
        · intro b hb
          rw [List.mem_singleton] at hb
          subst hb
          exact ⟨rfl, by simp [closeBB, newBB]⟩
        · simp [closeBB, newBB, List.range'_succ]
      · rcases runs with _ | ⟨nextRun, rest⟩
        · -- malformed descriptor: close the current block
          refine ⟨_, rfl, ?_, ?_, rfl⟩
          · intro b hb
            rw [List.mem_singleton] at hb
            subst hb
            exact ⟨rfl, by simp [closeBB, newBB]⟩
          · simp [closeBB, newBB, List.range'_succ]
        · -- open a new block at the next run's start offset
          obtain ⟨tail2, h1, h2, h3, h4⟩ := ihf rest nextRun.startOffset
            nextRun.numInsts nextRun.runEnd (count + 1)
            (traceSize + (env.insnAt curOffset).2) nextRun.startOffset
            (curId + 1)
            []
            (doneBlocks ++ [closeBB curId curStart (curInsns
              ++ [{ offset := curOffset, width := (env.insnAt curOffset).2
                    dins := (env.insnAt curOffset).1 }])])
          refine ⟨closeBB curId curStart (curInsns
              ++ [{ offset := curOffset, width := (env.insnAt curOffset).2
                    dins := (env.insnAt curOffset).1 }]) :: tail2,
            ?_, ?_, ?_, ?_⟩
          · rw [h1, List.append_assoc, List.singleton_append]
          · intro b hb
            rcases List.mem_cons.mp hb with hb | hb
            · subst hb
              exact ⟨rfl, by simp [closeBB, newBB]⟩
            · exact h2 b hb
          · simp only [List.map_cons, h3, List.length_cons, List.range'_succ]
            simp [closeBB, newBB]
          · rw [h4]
            simp only [List.length_cons]
            omega
    · -- stay in the current run
      obtain ⟨tail2, h1, h2, h3, h4⟩ := ihf runs
        (curOffset + (env.insnAt curOffset).2) (u32pred numInsts) runEnd
        (count + 1) (traceSize + (env.insnAt curOffset).2) curStart curId
        (curInsns ++ [{ offset := curOffset
                        width := (env.insnAt curOffset).2
                        dins := (env.insnAt curOffset).1 }])
        doneBlocks
      exact ⟨tail2, h1, h2, h3, h4⟩

/-- Pass 1 produces only nonempty bytecode blocks, their ids are their
positions, and the block counter is the block count. -/
theorem buildTraceBlocks_spec (env : DvmEnv) (desc : JitTraceDescription)
    (numMaxInsts : Int) :
    (∀ b ∈ (buildTraceBlocks env desc numMaxInsts).blocks,
        b.blockType = .DALVIK_BYTECODE ∧ b.insns ≠ [])
    ∧ (buildTraceBlocks env desc numMaxInsts).blocks.map BasicBlock.id
        = List.range ((buildTraceBlocks env desc numMaxInsts).numBlocks)
    ∧ (buildTraceBlocks env desc numMaxInsts).numBlocks
        = (buildTraceBlocks env desc numMaxInsts).blocks.length := by
  obtain ⟨tail, h1, h2, h3, h4⟩ := traceLoop_tail_spec env
    (numMaxInsts - 1).toNat desc.rest desc.first.startOffset
    desc.first.numInsts desc.first.runEnd 0 0 desc.first.startOffset 0 [] []
  simp only [Nat.zero_add, List.nil_append] at h1 h3 h4
  have hb : (buildTraceBlocks env desc numMaxInsts).blocks = tail := by
    simp only [buildTraceBlocks]
    exact h1
  have hn : (buildTraceBlocks env desc numMaxInsts).numBlocks = tail.length := by
    simp only [buildTraceBlocks]
    exact h4
  refine ⟨?_, ?_, ?_⟩
  · intro b hbm
    rw [hb] at hbm
    exact h2 b hbm
  · rw [hb, hn, h3, List.range_eq_range']
  · rw [hb, hn]

/-- Every ordinary bytecode block of a finished trace graph satisfies its
edge obligations: the pass-2 loop visits exactly the pass-1 blocks, and the
cells and trailer blocks are not bytecode blocks. -/
theorem trace_bytecode_goodEdges (jit : JitGlobals) (env : DvmEnv)
    (desc : JitTraceDescription) (numMaxInsts : Int) (b : BasicBlock)
    (hb : b ∈ (dvmCompileTrace jit env desc numMaxInsts).blockList)
    (hty : b.blockType = BBType.DALVIK_BYTECODE) :
    goodEdges env b := by
  obtain ⟨hbc, _, _⟩ := buildTraceBlocks_spec env desc numMaxInsts
  simp only [dvmCompileTrace] at hb
  rcases List.mem_append.mp hb with hb1 | hb2
  · rcases List.mem_append.mp hb1 with hp | hc
    · exact (connectLoop_processed_good env _ _ hbc (by simp) b hp).2
    · have hcell := connectLoop_cells_chaining env _ _ (by simp) b hc
      rw [hty] at hcell
      simp [isChainingCell] at hcell
  · rcases List.mem_cons.mp hb2 with hb3 | hb3
    · subst hb3
      simp [newBB] at hty
    · rcases List.mem_cons.mp hb3 with hb4 | hb4
      · subst hb4
        simp [newBB] at hty
      · exact absurd hb4 (List.not_mem_nil b)

/-- C4: after edge resolution and synthesis, every ordinary bytecode block
whose last instruction is not an unconditional-branch form (return family or
one of the three goto encodings) has a non-absent fallThrough edge. -/
theorem trace_fallThrough_resolved_of_conditional (jit : JitGlobals)
    (env : DvmEnv) (desc : JitTraceDescription) (numMaxInsts : Int)
    (b : BasicBlock)
    (hb : b ∈ (dvmCompileTrace jit env desc numMaxInsts).blockList)
    (hty : b.blockType = BBType.DALVIK_BYTECODE)
    (li : MIRInsn) (hli : b.insns.getLast? = some li)
    (huncond : isUnconditionalBranch li.dins.opCode = false) :
    b.fallThrough ≠ none :=
  ((trace_bytecode_goodEdges jit env desc numMaxInsts b hb hty) li hli).2
    huncond

/-- Witness for C4: the single-block if-eqz trace ends in a conditional
branch, and its block got a fallThrough edge (to the synthesized normal
chaining cell with id 2). -/
theorem trace_fallThrough_resolved_witness : ifeqzBlock.fallThrough ≠ none :=
  trace_fallThrough_resolved_of_conditional jitNone envIfEqz desc1 10
    ifeqzBlock (by decide) (by decide) ifeqzLast (by decide) (by decide)

/-- C2 (amended): after edge resolution and synthesis, every ordinary
bytecode block whose boundary-classifier target offset differs from its
last instruction's own offset has a non-absent taken edge. -/
theorem trace_taken_resolved_of_target_differs (jit : JitGlobals)
    (env : DvmEnv) (desc : JitTraceDescription) (numMaxInsts : Int)
    (b : BasicBlock)
    (hb : b ∈ (dvmCompileTrace jit env desc numMaxInsts).blockList)
    (hty : b.blockType = BBType.DALVIK_BYTECODE)
    (li : MIRInsn) (hli : b.insns.getLast? = some li)
    (htarget : (findBlockBoundary env.caller li.dins li.offset).target.getD
        li.offset ≠ li.offset) :
    b.taken ≠ none :=
  ((trace_bytecode_goodEdges jit env desc numMaxInsts b hb hty) li hli).1
    htarget

/-- Witness for C2's amended theorem: the if-eqz block's classifier target
is offset 4, not its own offset 0, and its taken edge points to the
synthesized chaining cell. -/
theorem trace_taken_resolved_witness : ifeqzBlock.taken ≠ none :=
  trace_taken_resolved_of_target_differs jitNone envIfEqz desc1 10
    ifeqzBlock (by decide) (by decide) ifeqzLast (by decide) (by decide)

/-- Counterexample for C2 as stated: a trace ending in invoke-virtual - an
instruction whose flags have is-invoke set - leaves the built graph with
its bytecode block's taken edge absent, because the classifier leaves the
target offset equal to the instruction's own offset for dynamic dispatch
and no chaining cell or block ever becomes the taken edge. -/
theorem trace_taken_absent_invoke_virtual :
    invVirtBlock ∈ (dvmCompileTrace jitNone envInvVirt desc1 10).blockList
    ∧ invVirtBlock.blockType = BBType.DALVIK_BYTECODE
    ∧ (invVirtBlock.insns.getLast?).map (fun m => m.dins.opCode)
        = some OpCode.OP_INVOKE_VIRTUAL
    ∧ (envInvVirt.instrFlags OpCode.OP_INVOKE_VIRTUAL).invoke = true
    ∧ invVirtBlock.taken = none := by
  decide

/-- C6: every block list the trace graph builder produces ends with exactly
two trailer blocks appended in order after all bytecode blocks and chaining
cells: a PC-reconstruction block and then an exception-handling block. -/
theorem trace_trailer_blocks (jit : JitGlobals) (env : DvmEnv)
    (desc : JitTraceDescription) (numMaxInsts : Int) :
    ∃ front pcBB excBB,
      (dvmCompileTrace jit env desc numMaxInsts).blockList
        = front ++ [pcBB, excBB]
      ∧ pcBB.blockType = BBType.PC_RECONSTRUCTION
      ∧ excBB.blockType = BBType.EXCEPTION_HANDLING
      ∧ ∀ b ∈ front, b.blockType = BBType.DALVIK_BYTECODE
          ∨ isChainingCell b.blockType = true := by
  obtain ⟨hbc, _, _⟩ := buildTraceBlocks_spec env desc numMaxInsts
  refine
    ⟨(connectLoop env (buildTraceBlocks env desc numMaxInsts).blocks
          { processed := [], cells := []
            numBlocks := (buildTraceBlocks env desc numMaxInsts).numBlocks
          }).processed
        ++ (connectLoop env (buildTraceBlocks env desc numMaxInsts).blocks
          { processed := [], cells := []
            numBlocks := (buildTraceBlocks env desc numMaxInsts).numBlocks
          }).cells,
      newBB .PC_RECONSTRUCTION
        (connectLoop env (buildTraceBlocks env desc numMaxInsts).blocks
          { processed := [], cells := []
            numBlocks := (buildTraceBlocks env desc numMaxInsts).numBlocks
          }).numBlocks,
      newBB .EXCEPTION_HANDLING
        ((connectLoop env (buildTraceBlocks env desc numMaxInsts).blocks
          { processed := [], cells := []
            numBlocks := (buildTraceBlocks env desc numMaxInsts).numBlocks
          }).numBlocks + 1),
      ?_, rfl, rfl, ?_⟩
  · simp [dvmCompileTrace]
  · intro b hbm
    rcases List.mem_append.mp hbm with hp | hc
    · exact Or.inl (connectLoop_processed_good env _ _ hbc (by simp) b hp).1
    · exact Or.inr (connectLoop_cells_chaining env _ _ (by simp) b hc).1

/-- C10: block ids are assigned consecutively from 0 in creation order, so
the populated block array's i-th entry has id i (ids range over
0..numBlocks-1 with no gap or duplicate), and the recorded block count
equals the array's length. -/
theorem trace_block_ids_consecutive (jit : JitGlobals) (env : DvmEnv)
    (desc : JitTraceDescription) (numMaxInsts : Int) :
    (dvmCompileTrace jit env desc numMaxInsts).blockList.map BasicBlock.id
      = List.range ((dvmCompileTrace jit env desc numMaxInsts).numBlocks)
    ∧ (dvmCompileTrace jit env desc numMaxInsts).numBlocks
      = (dvmCompileTrace jit env desc numMaxInsts).blockList.length := by
  obtain ⟨_, hids, hnum⟩ := buildTraceBlocks_spec env desc numMaxInsts
  have hconn := connectLoop_ids env
    (buildTraceBlocks env desc numMaxInsts).blocks
    { processed := [], cells := []
      numBlocks := (buildTraceBlocks env desc numMaxInsts).numBlocks }
    (by simpa using hids)
  have hmap :
      (dvmCompileTrace jit env desc numMaxInsts).blockList.map BasicBlock.id
        = List.range ((dvmCompileTrace jit env desc numMaxInsts).numBlocks) := by
    simp only [dvmCompileTrace]
    simp only [List.map_append] at hconn ⊢
    rw [List.range_succ, List.range_succ, ← hconn]
    simp [newBB_id, List.append_assoc]
  refine ⟨hmap, ?_⟩
  have hlen := congrArg List.length hmap
  simp only [List.length_map, List.length_range] at hlen
  exact hlen.symm

end DalvikFrontend
